import Mathlib

/-!
Verification of the sql-whisperer engine-normalization core.

The development shallowly embeds the TypeScript source:
  * the query safety analyzer (QueryValidator.validate and its helpers),
  * the shared base-client helpers (normalizeMaxRows, parseTableName),
  * the per-engine column type mappings,
  * the catalog grouping folds for indexes and foreign keys,
  * the PostgreSQL plan-tree recommendation walker.

Strings are modelled as List Char; the JavaScript regular expressions used
by the validator are embedded through a small backtracking matcher whose
constructors mirror the constructs the source patterns actually use.
-/

/-- JavaScript word character, the regex class backslash-w: [A-Za-z0-9_]. -/
def isWordChar (c : Char) : Bool :=
  (c ≥ 'a' && c ≤ 'z') || (c ≥ 'A' && c ≤ 'Z') || (c ≥ '0' && c ≤ '9') || c = '_'

/-- JavaScript whitespace, the regex class backslash-s (ASCII whitespace,
no-break space, BOM and the Unicode space separators / line separators). -/
def isSpaceChar (c : Char) : Bool :=
  c = ' ' || c = '\t' || c = '\n' || c = '\r' ||
  c = Char.ofNat 11 || c = Char.ofNat 12 || c = Char.ofNat 160 ||
  c = Char.ofNat 5760 || (c.toNat ≥ 8192 && c.toNat ≤ 8202) ||
  c = Char.ofNat 8232 || c = Char.ofNat 8233 || c = Char.ofNat 8239 ||
  c = Char.ofNat 8287 || c = Char.ofNat 12288 || c = Char.ofNat 65279

/-- JavaScript line terminators; the regex dot matches anything else. -/
def isLineTerm (c : Char) : Bool :=
  c = '\n' || c = '\r' || c = Char.ofNat 8232 || c = Char.ofNat 8233

/-- The regex dot (without the dotAll flag): any char except a line terminator. -/
def isDotChar (c : Char) : Bool := !(isLineTerm c)

/-- The single-quote character, built by code point to keep source text plain. -/
def quoteChar : Char := Char.ofNat 39

/-- String.prototype.trim: strip JavaScript whitespace from both ends. -/
def trimL (s : List Char) : List Char :=
  ((s.dropWhile isSpaceChar).reverse.dropWhile isSpaceChar).reverse

/-- String.prototype.toUpperCase restricted to ASCII (all inputs the
analyzed patterns inspect are ASCII SQL keywords). -/
def toUpperL (s : List Char) : List Char := s.map Char.toUpper

/-- String.prototype.includes: substring containment. -/
def containsSub (hay pat : List Char) : Bool :=
  match hay with
  | [] => pat.isEmpty
  | _ :: t => pat.isPrefixOf hay || containsSub t pat

/-- Embedded regular expressions: exactly the constructs appearing in the
source patterns.  Quantifiers only wrap single character classes, which the
source patterns satisfy, so matching terminates structurally. -/
inductive Regex where
  | eps
  | cls (f : Char → Bool)
  | lit (cs : List Char)
  | seq (a b : Regex)
  | alt (a b : Regex)
  | starCls (f : Char → Bool)
  | plusCls (f : Char → Bool)
  | optCls (f : Char → Bool)
  | grp (a : Regex)
  | wordB
  | eol

/-- Case-insensitive literal comparison at a position (all source patterns
carry the i flag). -/
def litMatches (cs : List Char) (s : List Char) (i : Nat) : Bool :=
  cs.enum.all (fun p =>
    match s[i + p.1]? with
    | some c => c.toLower = p.2.toLower
    | none => false)

/-- Length of the maximal run of class characters starting at i. -/
def clsRun (f : Char → Bool) (s : List Char) (i : Nat) : Nat :=
  ((s.drop i).takeWhile f).length

/-- Is the character at position i a word character (false off the ends)? -/
def isWordAt (s : List Char) (i : Nat) : Bool :=
  match s[i]? with
  | some c => isWordChar c
  | none => false

/-- All end positions of a match of r starting at i, most-preferred first
(greedy quantifiers, left-biased alternation), each with the span of the
single capture group when one was traversed. -/
def endsC (r : Regex) (s : List Char) (i : Nat) : List (Nat × Option (Nat × Nat)) :=
  match r with
  | .eps => [(i, none)]
  | .cls f =>
    match s[i]? with
    | some c => if f c then [(i + 1, none)] else []
    | none => []
  | .lit cs => if litMatches cs s i then [(i + cs.length, none)] else []
  | .seq a b =>
    (endsC a s i).flatMap (fun p =>
      (endsC b s p.1).map (fun q => (q.1, q.2.orElse (fun _ => p.2))))
  | .alt a b => endsC a s i ++ endsC b s i
  | .starCls f =>
    let n := clsRun f s i
    (List.range (n + 1)).map (fun k => (i + n - k, none))
  | .plusCls f =>
    let n := clsRun f s i
    if n = 0 then [] else (List.range n).map (fun k => (i + n - k, none))
  | .optCls f =>
    match s[i]? with
    | some c => if f c then [(i + 1, none), (i, none)] else [(i, none)]
    | none => [(i, none)]
  | .grp a => (endsC a s i).map (fun p => (p.1, some (i, p.1)))
  | .wordB =>
    let left := match i with
      | 0 => false
      | Nat.succ k => isWordAt s k
    if left != isWordAt s i then [(i, none)] else []
  | .eol => if i = s.length then [(i, none)] else []

/-- Leftmost match at or after position i: start, end, capture span. -/
def firstMatchAux (r : Regex) (s : List Char) : Nat → Nat → Option (Nat × Nat × Option (Nat × Nat))
  | _, 0 => none
  | i, fuel + 1 =>
    match endsC r s i with
    | [] => firstMatchAux r s (i + 1) fuel
    | p :: _ => some (i, p.1, p.2)

/-- Leftmost match at or after position p (RegExp search semantics). -/
def firstMatchFrom (r : Regex) (s : List Char) (p : Nat) : Option (Nat × Nat × Option (Nat × Nat)) :=
  if p > s.length then none else firstMatchAux r s p (s.length + 1 - p)

/-- RegExp.prototype.test. -/
def rtest (r : Regex) (s : List Char) : Bool := (firstMatchFrom r s 0).isSome

/-- All matches, with the global-flag lastIndex advancement rule. -/
def matchAllAux (r : Regex) (s : List Char) : Nat → Nat → List (Nat × Nat × Option (Nat × Nat))
  | _, 0 => []
  | p, fuel + 1 =>
    match firstMatchFrom r s p with
    | none => []
    | some m =>
      m :: matchAllAux r s (if m.2.1 > m.1 then m.2.1 else m.2.1 + 1) fuel

/-- String.prototype.matchAll for a global pattern. -/
def matchAllL (r : Regex) (s : List Char) : List (Nat × Nat × Option (Nat × Nat)) :=
  matchAllAux r s 0 (s.length + 2)

/-- Number of matches of a global pattern (str.match(g-pattern).length). -/
def countMatches (r : Regex) (s : List Char) : Nat := (matchAllL r s).length

/-- Slice s between positions a and b. -/
def sliceL (s : List Char) (a b : Nat) : List Char := (s.drop a).take (b - a)

/-- Capture-group texts of all matches of a global pattern. -/
def allCaptures (r : Regex) (s : List Char) : List (List Char) :=
  (matchAllL r s).filterMap (fun m => m.2.2.map (fun g => sliceL s g.1 g.2))

/-- Capture-group text of the first match (str.match(pattern)[1]). -/
def firstCapture (r : Regex) (s : List Char) : Option (List Char) :=
  (firstMatchFrom r s 0).bind (fun m => m.2.2.map (fun g => sliceL s g.1 g.2))

/-- Chain a list of regexes in sequence. -/
def seqs (l : List Regex) : Regex := l.foldr Regex.seq Regex.eps

/-! ## The source regex patterns (QueryValidator) -/

/-- Shorthand: backslash-s plus. -/
def wsP : Regex := .plusCls isSpaceChar

/-- Shorthand: backslash-s star. -/
def wsS : Regex := .starCls isSpaceChar

/-- Shorthand: backslash-w plus. -/
def wordP : Regex := .plusCls isWordChar

/-- Shorthand: case-insensitive literal. -/
def lw (t : String) : Regex := .lit t.data

/-- Shorthand: a single quote character. -/
def quoteR : Regex := .cls (fun c => c = quoteChar)

/-- Shorthand: an optional single quote character. -/
def quoteOpt : Regex := .optCls (fun c => c = quoteChar)

/-- Severity union of ValidationError and ValidationWarning. -/
inductive Severity where
  | info
  | warning
  | error
  | critical
deriving DecidableEq, Repr

/-- One validation finding; ValidationError and ValidationWarning carry the
same fields (errors use error/critical severities, warnings warning/info). -/
structure Finding where
  code : List Char
  message : List Char
  severity : Severity
  suggestion : Option (List Char)
deriving DecidableEq, Repr

/-- QueryMetadata.queryType. -/
inductive QueryType where
  | SELECT
  | INSERT
  | UPDATE
  | DELETE
  | DDL
  | TRANSACTION
  | OTHER
deriving DecidableEq, Repr

/-- QueryMetadata.estimatedComplexity. -/
inductive Complexity where
  | low
  | medium
  | high
deriving DecidableEq, Repr

/-- QueryMetadata. -/
structure QueryMetadata where
  queryType : QueryType
  isMutation : Bool
  tablesAccessed : List (List Char)
  estimatedComplexity : Complexity
  requiresConfirmation : Bool
deriving DecidableEq, Repr

/-- ValidationResult. -/
structure ValidationResult where
  isValid : Bool
  errors : List Finding
  warnings : List Finding
  metadata : QueryMetadata
deriving DecidableEq, Repr

/-- The dangerousPatterns table of detectDangerousOperations, in source order. -/
def dangerousPatterns : List (Regex × List Char) :=
  [ (seqs [.wordB, lw "DROP", wsP, lw "TABLE", .wordB], "DROP TABLE".data),
    (seqs [.wordB, lw "DROP", wsP, lw "DATABASE", .wordB], "DROP DATABASE".data),
    (seqs [.wordB, lw "TRUNCATE", .wordB], "TRUNCATE".data),
    (seqs [.wordB, lw "DELETE", wsP, lw "FROM", wsP, wordP, wsS,
      .optCls (fun c => c = ';'), wsS, .eol], "DELETE ALL ROWS".data),
    (seqs [.wordB, lw "ALTER", wsP, lw "TABLE", .wordB], "ALTER TABLE".data),
    (seqs [.wordB, lw "DROP", wsP, lw "COLUMN", .wordB], "DROP COLUMN".data),
    (.alt (seqs [.wordB, lw "EXEC", .wordB]) (seqs [.wordB, lw "EXECUTE", .wordB]),
      "EXECUTE".data),
    (seqs [lw ";", wsS, lw "DROP", .wordB], "SQL INJECTION (DROP)".data),
    (seqs [lw ";", wsS, lw "DELETE", .wordB], "SQL INJECTION (DELETE)".data) ]

/-- QueryValidator.detectDangerousOperations. -/
def detectDangerousOperations (query : List Char) : List (List Char) :=
  (dangerousPatterns.filter (fun p => rtest p.1 query)).map (fun p => p.2)

/-- Message text of the second injection pattern, built without a literal
apostrophe in this file. -/
def msgOrXX : List Char :=
  "OR ".data ++ [quoteChar] ++ "x".data ++ [quoteChar] ++ "=".data ++
  [quoteChar] ++ "x".data ++ [quoteChar] ++ " pattern detected".data

/-- The injectionPatterns table of detectInjectionPatterns, in source order. -/
def injectionPatterns : List (Regex × List Char) :=
  [ (seqs [quoteR, wsS, lw "OR", wsP, quoteOpt, .plusCls Char.isDigit, quoteOpt,
      wsS, lw "=", wsS, quoteOpt, .plusCls Char.isDigit, quoteOpt],
      "OR 1=1 pattern detected".data),
    (seqs [quoteR, wsS, lw "OR", wsP, quoteOpt, .plusCls Char.isAlpha, quoteOpt,
      wsS, lw "=", wsS, quoteOpt, .plusCls Char.isAlpha, quoteOpt],
      msgOrXX),
    (seqs [quoteR, wsS, lw ";", .starCls isDotChar, lw "--"],
      "SQL comment injection pattern detected".data),
    (seqs [lw "UNION", wsP, lw "SELECT"],
      "UNION SELECT pattern detected".data),
    (seqs [quoteR, wsS, lw ")", wsS, lw "OR", wsS, lw "("],
      "Parentheses OR pattern detected".data) ]

/-- QueryValidator.detectInjectionPatterns. -/
def detectInjectionPatterns (query : List Char) : List Finding :=
  (injectionPatterns.filter (fun p => rtest p.1 query)).map (fun p =>
    { code := "POTENTIAL_INJECTION".data
      message := p.2
      severity := Severity.warning
      suggestion := some ("Use parameterized queries to prevent SQL injection.".data) })

/-- Character class of the cartesian-product FROM capture group. -/
def isFromGroupChar (c : Char) : Bool := isWordChar c || c = ',' || isSpaceChar c

/-- The FROM-clause pattern of hasCartesianProduct. -/
def reFromClause : Regex :=
  seqs [lw "FROM", wsP, .grp (.plusCls isFromGroupChar),
    .alt (lw "WHERE") (.alt (lw "GROUP") (.alt (lw "ORDER") (.alt (lw "LIMIT") .eol)))]

/-- String.prototype.split for a single-character separator. -/
def splitOnCharL (sep : Char) (s : List Char) : List (List Char) :=
  match s with
  | [] => [[]]
  | c :: t =>
    let r := splitOnCharL sep t
    if c = sep then [] :: r
    else
      match r with
      | [] => [[c]]
      | h :: rt => (c :: h) :: rt

/-- QueryValidator.hasCartesianProduct. -/
def hasCartesianProduct (query : List Char) : Bool :=
  match firstCapture reFromClause query with
  | none => false
  | some capture =>
    let tables := (splitOnCharL ',' capture).map trimL
    tables.length > 1 && !(containsSub query ("JOIN".data))

/-- The expensivePatterns table of detectExpensiveOperations, in source order;
the third component is minMatches for the global patterns that carry it. -/
def expensivePatterns : List (Regex × List Char × Option Nat) :=
  [ (seqs [.wordB, lw "LIKE", wsP, quoteR, lw "%", .starCls isDotChar, lw "%", quoteR],
      ("LIKE with leading wildcard".data, none)),
    (seqs [.wordB, lw "NOT", wsP, lw "IN", wsS, lw "("],
      ("NOT IN subquery".data, none)),
    (seqs [.wordB, lw "OR", .wordB], ("Multiple OR conditions".data, some 3)),
    (seqs [.wordB, lw "UNION", .wordB], ("UNION operation".data, none)),
    (seqs [.wordB, lw "DISTINCT", .wordB], ("DISTINCT operation".data, none)),
    (seqs [.wordB,
      .alt (lw "SUBSTRING") (.alt (lw "LOWER") (.alt (lw "UPPER") (lw "CONCAT"))),
      wsS, lw "("], ("Function on column".data, some 2)) ]

/-- QueryValidator.detectExpensiveOperations.  Non-global patterns without a
minMatches bound contribute when they match at all; global patterns with a
bound contribute when the match count reaches it. -/
def detectExpensiveOperations (query : List Char) : List (List Char) :=
  (expensivePatterns.filter (fun p =>
    match p.2.2 with
    | none => rtest p.1 query
    | some m => decide (countMatches p.1 query ≥ m))).map (fun p => p.2.1)

/-- Character class of the table-name capture groups: backslash-w or dot. -/
def isTblChar (c : Char) : Bool := isWordChar c || c = '.'

/-- Table-name capture: keyword sequence, whitespace, captured identifier. -/
def tblPat (kws : List String) : Regex :=
  seqs ((kws.map lw).intersperse wsP ++ [wsP, .grp (.plusCls isTblChar)])

/-- QueryValidator.extractTableNames: the five capture scans, deduplicated
preserving first insertion (a JavaScript Set). -/
def extractTableNames (query : List Char) : List (List Char) :=
  let all :=
    allCaptures (tblPat ["FROM"]) query ++
    allCaptures (tblPat ["JOIN"]) query ++
    allCaptures (tblPat ["INSERT", "INTO"]) query ++
    allCaptures (tblPat ["UPDATE"]) query ++
    allCaptures (tblPat ["DELETE", "FROM"]) query
  all.foldl (fun acc t => if t ∈ acc then acc else acc ++ [t]) []

/-- The complexity indicator table of estimateComplexity, in source order. -/
def complexityIndicators : List (Regex × Nat) :=
  [ (seqs [.wordB, lw "JOIN", .wordB], 2),
    (.alt (seqs [.wordB, lw "SUBSELECT", .wordB]) (seqs [lw "(", wsS, lw "SELECT"]), 3),
    (seqs [.wordB, lw "UNION", .wordB], 2),
    (seqs [.wordB, lw "GROUP BY", .wordB], 1),
    (seqs [.wordB, lw "HAVING", .wordB], 1),
    (seqs [.wordB, lw "ORDER BY", .wordB], 1),
    (seqs [.wordB, lw "DISTINCT", .wordB], 1),
    (seqs [.wordB, lw "WINDOW", .wordB], 3),
    (.alt (seqs [.wordB, lw "CTE", .wordB]) (seqs [.wordB, lw "WITH", wsP, wordP, wsP, lw "AS"]), 2) ]

/-- QueryValidator.estimateComplexity. -/
def estimateComplexity (query : List Char) : Complexity :=
  let score := (complexityIndicators.map (fun p => countMatches p.1 query * p.2)).sum
  if score ≤ 2 then Complexity.low
  else if score ≤ 6 then Complexity.medium
  else Complexity.high

/-- QueryValidator.detectQueryType. -/
def detectQueryType (query : List Char) : QueryType :=
  let normalized := toUpperL (trimL query)
  if ("SELECT".data).isPrefixOf normalized then QueryType.SELECT
  else if ("INSERT".data).isPrefixOf normalized then QueryType.INSERT
  else if ("UPDATE".data).isPrefixOf normalized then QueryType.UPDATE
  else if ("DELETE".data).isPrefixOf normalized then QueryType.DELETE
  else if ("CREATE".data).isPrefixOf normalized || ("ALTER".data).isPrefixOf normalized ||
    ("DROP".data).isPrefixOf normalized || ("TRUNCATE".data).isPrefixOf normalized then
    QueryType.DDL
  else if ("BEGIN".data).isPrefixOf normalized || ("COMMIT".data).isPrefixOf normalized ||
    ("ROLLBACK".data).isPrefixOf normalized then QueryType.TRANSACTION
  else QueryType.OTHER

/-- QueryValidator.isMutationQuery. -/
def isMutationQuery (queryType : QueryType) : Bool :=
  queryType = QueryType.INSERT || queryType = QueryType.UPDATE ||
  queryType = QueryType.DELETE || queryType = QueryType.DDL

/-! ## QueryValidator.validate -/

/-- The normalized query: query.trim().toUpperCase(). -/
def normQ (query : List Char) : List Char := toUpperL (trimL query)

/-- The DANGEROUS_OPERATION error built for one detected operation name. -/
def mkDangerError (op : List Char) : Finding :=
  { code := "DANGEROUS_OPERATION".data
    message := "Dangerous operation detected: ".data ++ op
    severity := Severity.critical
    suggestion := some ("Review this operation carefully before executing.".data) }

/-- The errors contributed by detectDangerousOperations. -/
def dangerErrorsOf (nq : List Char) : List Finding :=
  (detectDangerousOperations nq).map mkDangerError

/-- The DELETE_WITHOUT_WHERE critical error. -/
def deleteWhereError : Finding :=
  { code := "DELETE_WITHOUT_WHERE".data
    message := "DELETE statement without WHERE clause will remove all rows".data
    severity := Severity.critical
    suggestion := some ("Add a WHERE clause to limit the deletion scope.".data) }

/-- The UPDATE_WITHOUT_WHERE warning. -/
def updateWhereWarning : Finding :=
  { code := "UPDATE_WITHOUT_WHERE".data
    message := "UPDATE statement without WHERE clause will modify all rows".data
    severity := Severity.warning
    suggestion := some ("Add a WHERE clause to limit the update scope.".data) }

/-- Errors of the mutation-without-WHERE check (DELETE branch). -/
def whereErrorsOf (queryType : QueryType) (nq : List Char) : List Finding :=
  if isMutationQuery queryType && !(containsSub nq ("WHERE".data)) then
    match queryType with
    | QueryType.DELETE => [deleteWhereError]
    | _ => []
  else []

/-- Warnings of the mutation-without-WHERE check (UPDATE branch). -/
def whereWarningsOf (queryType : QueryType) (nq : List Char) : List Finding :=
  if isMutationQuery queryType && !(containsSub nq ("WHERE".data)) then
    match queryType with
    | QueryType.UPDATE => [updateWhereWarning]
    | _ => []
  else []

/-- The SELECT_STAR warning list. -/
def selectStarWarningsOf (nq : List Char) : List Finding :=
  if containsSub nq ("SELECT *".data) then
    [{ code := "SELECT_STAR".data
       message := "Using SELECT * may retrieve unnecessary columns".data
       severity := Severity.info
       suggestion := some ("Specify only the columns you need for better performance.".data) }]
  else []

/-- The MISSING_LIMIT warning list. -/
def missingLimitWarningsOf (queryType : QueryType) (nq : List Char) : List Finding :=
  if queryType = QueryType.SELECT && !(containsSub nq ("LIMIT".data)) then
    [{ code := "MISSING_LIMIT".data
       message := "SELECT query without LIMIT may return large result sets".data
       severity := Severity.info
       suggestion := some ("Consider adding LIMIT clause to control result size.".data) }]
  else []

/-- The CARTESIAN_PRODUCT warning list. -/
def cartesianWarningsOf (nq : List Char) : List Finding :=
  if hasCartesianProduct nq then
    [{ code := "CARTESIAN_PRODUCT".data
       message := "Query may produce cartesian product".data
       severity := Severity.warning
       suggestion := some ("Ensure proper JOIN conditions between tables.".data) }]
  else []

/-- The EXPENSIVE_OPERATION warning built for one detected operation name. -/
def mkExpensiveWarning (op : List Char) : Finding :=
  { code := "EXPENSIVE_OPERATION".data
    message := "Potentially expensive operation detected: ".data ++ op
    severity := Severity.warning
    suggestion := some ("This operation may impact performance on large tables.".data) }

/-- The warnings contributed by detectExpensiveOperations. -/
def expensiveWarningsOf (nq : List Char) : List Finding :=
  (detectExpensiveOperations nq).map mkExpensiveWarning

/-- QueryValidator.validate, assembling the findings in source push order. -/
def validate (query : List Char) : ValidationResult :=
  let normalizedQuery := normQ query
  let queryType := detectQueryType query
  let isMutation := isMutationQuery queryType
  let dangerousOps := detectDangerousOperations normalizedQuery
  let errors := dangerErrorsOf normalizedQuery ++ whereErrorsOf queryType normalizedQuery
  let warnings :=
    detectInjectionPatterns query ++
    whereWarningsOf queryType normalizedQuery ++
    selectStarWarningsOf normalizedQuery ++
    missingLimitWarningsOf queryType normalizedQuery ++
    cartesianWarningsOf normalizedQuery ++
    expensiveWarningsOf normalizedQuery
  let requiresConfirmation :=
    isMutation || decide (dangerousOps.length > 0) || decide (errors.length > 0)
  { isValid := decide (errors.length = 0)
    errors := errors
    warnings := warnings
    metadata :=
      { queryType := queryType
        isMutation := isMutation
        tablesAccessed := extractTableNames query
        estimatedComplexity := estimateComplexity normalizedQuery
        requiresConfirmation := requiresConfirmation } }

/-! ## BaseDatabaseClient helpers -/

/-- BaseDatabaseClient.normalizeMaxRows.  The requested value is optional; a
request of 0 is falsy in the source and also takes the default. -/
def normalizeMaxRows (maxRows : Option Int) : Int :=
  let defaultMaxRows : Int := 1000
  let absoluteMaxRows : Int := 10000
  match maxRows with
  | none => defaultMaxRows
  | some n =>
    if n = 0 then defaultMaxRows
    else if n < 0 then defaultMaxRows
    else if n > absoluteMaxRows then absoluteMaxRows
    else n

/-- rows.slice(0, maxRows) as applied by every client after execution. -/
def sliceRows {ρ : Type} (engineRows : List ρ) (maxRows : Option Int) : List ρ :=
  engineRows.take (normalizeMaxRows maxRows).toNat

/-- The row/rowCount pair a query call returns. -/
structure QueryRowsResult (ρ : Type) where
  rows : List ρ
  rowCount : Nat
deriving DecidableEq, Repr

/-- MySQLClient.query row handling: limited rows, rowCount from the full
engine row list. -/
def mysqlLimitResult {ρ : Type} (engineRows : List ρ) (maxRows : Option Int) :
    QueryRowsResult ρ :=
  { rows := sliceRows engineRows maxRows, rowCount := engineRows.length }

/-- SQLiteClient.query row handling on the SELECT path: rowCount is taken
before the slice. -/
def sqliteSelectLimitResult {ρ : Type} (engineRows : List ρ) (maxRows : Option Int) :
    QueryRowsResult ρ :=
  { rows := sliceRows engineRows maxRows, rowCount := engineRows.length }

/-- PostgreSQLClient.query row handling: limited rows, rowCount as reported
by the driver (result.rowCount or 0 when null). -/
def pgLimitResult {ρ : Type} (engineRows : List ρ) (reportedCount : Option Nat)
    (maxRows : Option Int) : QueryRowsResult ρ :=
  { rows := sliceRows engineRows maxRows, rowCount := reportedCount.getD 0 }

/-- String.prototype.split for one separator character, then the length-2
test of BaseDatabaseClient.parseTableName. -/
def parseTableName (tableName : List Char) : (List Char) × (List Char) :=
  match splitOnCharL '.' tableName with
  | [a, b] => (a, b)
  | parts => ("public".data, parts.headD [])

/-- The TABLE_SCHEMA bind parameter of MySQLClient.getTableStatistics:
schema or the string public when schema is falsy. -/
def mysqlStatsSchemaParam (tableName : List Char) : List Char :=
  let parsed := parseTableName tableName
  if parsed.1 = [] then "public".data else parsed.1

/-! ## Column type mappings -/

/-- The MySQL field-type table of MySQLClient.mapMySQLType. -/
def mysqlTypeMap : List (Nat × List Char) :=
  [ (0, "decimal".data), (1, "tiny".data), (2, "short".data), (3, "long".data),
    (4, "float".data), (5, "double".data), (7, "timestamp".data),
    (8, "longlong".data), (9, "int24".data), (10, "date".data),
    (11, "time".data), (12, "datetime".data), (13, "year".data),
    (15, "varchar".data), (16, "bit".data), (245, "json".data),
    (246, "decimal".data), (247, "enum".data), (248, "set".data),
    (249, "tiny_blob".data), (250, "medium_blob".data), (251, "long_blob".data),
    (252, "blob".data), (253, "var_string".data), (254, "string".data),
    (255, "geometry".data) ]

/-- MySQLClient.mapMySQLType: undefined and unmapped codes give unknown
(no table value is an empty string, so the source falsy-default is a plain
lookup default). -/
def mapMySQLType (fieldType : Option Nat) : List Char :=
  match fieldType with
  | none => "unknown".data
  | some n => ((mysqlTypeMap.lookup n).getD ("unknown".data))

/-- The OID table of PostgreSQLClient.mapPostgreSQLType. -/
def pgTypeMap : List (Nat × List Char) :=
  [ (16, "boolean".data), (17, "bytea".data), (20, "bigint".data),
    (21, "smallint".data), (23, "integer".data), (25, "text".data),
    (700, "real".data), (701, "double precision".data), (1042, "character".data),
    (1043, "varchar".data), (1082, "date".data), (1083, "time".data),
    (1114, "timestamp".data), (1184, "timestamptz".data), (2950, "uuid".data),
    (3802, "jsonb".data) ]

/-- PostgreSQLClient.mapPostgreSQLType. -/
def mapPostgreSQLType (oid : Nat) : List Char :=
  (pgTypeMap.lookup oid).getD ("unknown".data)

/-- SQLiteClient.normalizeSQLiteType: substring checks on the uppercased
native type, with blob as the declared SQLite default. -/
def normalizeSQLiteType (sqliteType : List Char) : List Char :=
  let ty := toUpperL sqliteType
  if containsSub ty ("INT".data) then "integer".data
  else if containsSub ty ("CHAR".data) || containsSub ty ("TEXT".data) ||
    containsSub ty ("CLOB".data) then "text".data
  else if containsSub ty ("REAL".data) || containsSub ty ("FLOA".data) ||
    containsSub ty ("DOUB".data) then "real".data
  else if containsSub ty ("BLOB".data) then "blob".data
  else if containsSub ty ("NUMERIC".data) || containsSub ty ("DECIMAL".data) then
    "numeric".data
  else if containsSub ty ("BOOL".data) then "boolean".data
  else if containsSub ty ("DATE".data) || containsSub ty ("TIME".data) then
    "datetime".data
  else "blob".data

/-- The native-type codes MySQLClient.mapMySQLType recognizes. -/
def mysqlTypeKeys : List Nat := mysqlTypeMap.map (fun p => p.1)

/-- The OIDs PostgreSQLClient.mapPostgreSQLType recognizes. -/
def pgTypeKeys : List Nat := pgTypeMap.map (fun p => p.1)

/-- A SQLite native type is recognized when any of the substring checks of
normalizeSQLiteType fires. -/
def sqliteTypeRecognized (sqliteType : List Char) : Bool :=
  let ty := toUpperL sqliteType
  containsSub ty ("INT".data) || containsSub ty ("CHAR".data) ||
  containsSub ty ("TEXT".data) || containsSub ty ("CLOB".data) ||
  containsSub ty ("REAL".data) || containsSub ty ("FLOA".data) ||
  containsSub ty ("DOUB".data) || containsSub ty ("BLOB".data) ||
  containsSub ty ("NUMERIC".data) || containsSub ty ("DECIMAL".data) ||
  containsSub ty ("BOOL".data) || containsSub ty ("DATE".data) ||
  containsSub ty ("TIME".data)

/-- The canonical categories the three mappings can produce. -/
def mysqlCategories : List (List Char) :=
  mysqlTypeMap.map (fun p => p.2) ++ ["unknown".data]

/-- The canonical categories mapPostgreSQLType can produce. -/
def pgCategories : List (List Char) :=
  pgTypeMap.map (fun p => p.2) ++ ["unknown".data]

/-- The canonical categories normalizeSQLiteType can produce. -/
def sqliteCategories : List (List Char) :=
  [ "integer".data, "text".data, "real".data, "blob".data, "numeric".data,
    "boolean".data, "datetime".data ]

/-! ## Catalog grouping folds -/

/-- The grouping idiom shared by the introspection methods: walk the catalog
rows in order, keep an insertion-ordered map keyed by the natural key
(a JavaScript Map), create the entry from the first row of a key, and push
one element per row into the entry.  The push is applied for every row,
matching the source, which creates the entry with empty lists and then
pushes unconditionally. -/
def groupFold {α κ β : Type} [DecidableEq κ] (key : α → κ) (mkEntry : α → β)
    (push : α → β → β) (rows : List α) : List (κ × β) :=
  rows.foldl (fun st a =>
    if (st.lookup (key a)).isSome then
      st.map (fun p => if p.1 = key a then (p.1, push a p.2) else p)
    else
      st ++ [(key a, push a (mkEntry a))]) []

/-- Index column direction. -/
inductive SortOrder where
  | ASC
  | DESC
deriving DecidableEq, Repr

/-- IndexColumn. -/
structure IndexColumn where
  name : List Char
  order : SortOrder
deriving DecidableEq, Repr

/-- IndexSchema as built by the MySQL adapter. -/
structure IndexSchema where
  name : List Char
  columns : List IndexColumn
  isUnique : Bool
  isPrimary : Bool
  idxType : List Char
deriving DecidableEq, Repr

/-- One catalog row of the MySQL STATISTICS query in introspectIndexes. -/
structure MySQLIndexRow where
  INDEX_NAME : List Char
  NON_UNIQUE : Int
  COLUMN_NAME : List Char
  SEQ_IN_INDEX : Int
  COLLATION : List Char
  INDEX_TYPE : List Char
  is_primary : Int
deriving DecidableEq, Repr

/-- The entry created from the first row of an index name. -/
def mysqlIndexEntry (r : MySQLIndexRow) : IndexSchema :=
  { name := r.INDEX_NAME
    columns := []
    isUnique := decide (r.NON_UNIQUE = 0)
    isPrimary := decide (r.is_primary = 1)
    idxType := r.INDEX_TYPE }

/-- The per-row column push of introspectIndexes. -/
def mysqlIndexPush (r : MySQLIndexRow) (idx : IndexSchema) : IndexSchema :=
  { idx with columns := idx.columns ++
      [{ name := r.COLUMN_NAME
         order := if r.COLLATION = "A".data then SortOrder.ASC else SortOrder.DESC }] }

/-- The grouped map state of MySQLClient.introspectIndexes. -/
def mysqlIndexGroups (rows : List MySQLIndexRow) : List (List Char × IndexSchema) :=
  groupFold (fun r => r.INDEX_NAME) mysqlIndexEntry mysqlIndexPush rows

/-- MySQLClient.introspectIndexes on already-fetched catalog rows. -/
def introspectIndexesFold (rows : List MySQLIndexRow) : List IndexSchema :=
  (mysqlIndexGroups rows).map (fun p => p.2)

/-- ForeignKeyConstraint (rule strings kept as raw catalog text). -/
structure ForeignKeyConstraint where
  name : List Char
  columns : List (List Char)
  referencedTable : List Char
  referencedSchema : List Char
  referencedColumns : List (List Char)
  onDelete : List Char
  onUpdate : List Char
deriving DecidableEq, Repr

/-- One catalog row of the MySQL KEY_COLUMN_USAGE query in
introspectForeignKeys. -/
structure MySQLFKRow where
  CONSTRAINT_NAME : List Char
  COLUMN_NAME : List Char
  REFERENCED_TABLE_SCHEMA : List Char
  REFERENCED_TABLE_NAME : List Char
  REFERENCED_COLUMN_NAME : List Char
  UPDATE_RULE : List Char
  DELETE_RULE : List Char
deriving DecidableEq, Repr

/-- The entry created from the first row of a constraint. -/
def mysqlFKEntry (r : MySQLFKRow) : ForeignKeyConstraint :=
  { name := r.CONSTRAINT_NAME
    columns := []
    referencedTable := r.REFERENCED_TABLE_NAME
    referencedSchema := r.REFERENCED_TABLE_SCHEMA
    referencedColumns := []
    onDelete := r.DELETE_RULE
    onUpdate := r.UPDATE_RULE }

/-- The per-row push of introspectForeignKeys: one local and one referenced
column per row. -/
def mysqlFKPush (r : MySQLFKRow) (fk : ForeignKeyConstraint) : ForeignKeyConstraint :=
  { fk with
    columns := fk.columns ++ [r.COLUMN_NAME]
    referencedColumns := fk.referencedColumns ++ [r.REFERENCED_COLUMN_NAME] }

/-- The grouped map state of MySQLClient.introspectForeignKeys. -/
def mysqlFKGroups (rows : List MySQLFKRow) : List (List Char × ForeignKeyConstraint) :=
  groupFold (fun r => r.CONSTRAINT_NAME) mysqlFKEntry mysqlFKPush rows

/-- MySQLClient.introspectForeignKeys on already-fetched catalog rows. -/
def mysqlForeignKeysFold (rows : List MySQLFKRow) : List ForeignKeyConstraint :=
  (mysqlFKGroups rows).map (fun p => p.2)

/-- One row of the SQLite foreign_key_list pragma (from and to renamed,
both are Lean keywords). -/
structure SQLiteFKRow where
  id : Int
  seq : Int
  tbl : List Char
  fromCol : List Char
  toCol : List Char
  on_update : List Char
  on_delete : List Char
deriving DecidableEq, Repr

/-- The entry created from the first row of a foreign-key id; the name is
synthesized as fk_, the table name, an underscore and the id. -/
def sqliteFKEntry (tableName : List Char) (r : SQLiteFKRow) : ForeignKeyConstraint :=
  { name := "fk_".data ++ tableName ++ "_".data ++ (toString r.id).data
    columns := []
    referencedTable := r.tbl
    referencedSchema := "main".data
    referencedColumns := []
    onDelete := r.on_delete
    onUpdate := r.on_update }

/-- The per-row push of the SQLite fold. -/
def sqliteFKPush (r : SQLiteFKRow) (fk : ForeignKeyConstraint) : ForeignKeyConstraint :=
  { fk with
    columns := fk.columns ++ [r.fromCol]
    referencedColumns := fk.referencedColumns ++ [r.toCol] }

/-- SQLiteClient.introspectForeignKeys on already-fetched pragma rows. -/
def sqliteForeignKeysFold (tableName : List Char) (rows : List SQLiteFKRow) :
    List ForeignKeyConstraint :=
  (groupFold (fun r => r.id) (sqliteFKEntry tableName) sqliteFKPush rows).map
    (fun p => p.2)

/-- One catalog row of the PostgreSQL constraint query in
introspectForeignKeys. -/
structure PGFKRow where
  constraint_name : List Char
  column_name : List Char
  foreign_table_schema : List Char
  foreign_table_name : List Char
  foreign_column_name : List Char
  update_rule : List Char
  delete_rule : List Char
deriving DecidableEq, Repr

/-- The entry created from the first row of a constraint. -/
def pgFKEntry (r : PGFKRow) : ForeignKeyConstraint :=
  { name := r.constraint_name
    columns := []
    referencedTable := r.foreign_table_name
    referencedSchema := r.foreign_table_schema
    referencedColumns := []
    onDelete := r.delete_rule
    onUpdate := r.update_rule }

/-- The per-row push of the PostgreSQL fold. -/
def pgFKPush (r : PGFKRow) (fk : ForeignKeyConstraint) : ForeignKeyConstraint :=
  { fk with
    columns := fk.columns ++ [r.column_name]
    referencedColumns := fk.referencedColumns ++ [r.foreign_column_name] }

/-- PostgreSQLClient.introspectForeignKeys on already-fetched catalog rows. -/
def pgForeignKeysFold (rows : List PGFKRow) : List ForeignKeyConstraint :=
  (groupFold (fun r => r.constraint_name) pgFKEntry pgFKPush rows).map (fun p => p.2)

/-! ## PostgreSQL plan tree and recommendations -/

/-- The fields of one plan node that generateRecommendations inspects;
absent JSON fields are none. -/
structure PGPlanInfo where
  nodeType : List Char
  relationName : Option (List Char)
  planRows : Option Int
deriving DecidableEq, Repr

/-- A PostgreSQL EXPLAIN plan node: its inspected fields and the ordered
Plans children array. -/
inductive PGPlan where
  | mk (info : PGPlanInfo) (children : List PGPlan)

/-- Node fields. -/
def PGPlan.info : PGPlan → PGPlanInfo
  | .mk i _ => i

/-- Ordered children. -/
def PGPlan.children : PGPlan → List PGPlan
  | .mk _ c => c

/-- Does a node qualify for the sequential-scan recommendation: Seq Scan
with Plan Rows above 1000 (an absent count compares false in the source)? -/
def qualifiesSeqScan (i : PGPlanInfo) : Bool :=
  i.nodeType = "Seq Scan".data &&
  (match i.planRows with
   | some n => decide (n > 1000)
   | none => false)

/-- Does a node qualify for the nested-loop recommendation? -/
def qualifiesNestedLoop (i : PGPlanInfo) : Bool :=
  i.nodeType = "Nested Loop".data &&
  (match i.planRows with
   | some n => decide (n > 10000)
   | none => false)

/-- The sequential-scan recommendation text; an absent relation name prints
as the word undefined, as the source template literal does. -/
def seqScanRec (relationName : Option (List Char)) : List Char :=
  "Consider adding an index on ".data ++ relationName.getD ("undefined".data) ++
  " to avoid sequential scan".data

/-- The nested-loop recommendation text. -/
def nestedLoopRec : List Char :=
  "Nested loop with high row count detected. Consider using a hash join instead.".data

/-- The recommendations one node contributes, in source check order. -/
def nodeRecs (i : PGPlanInfo) : List (List Char) :=
  (if qualifiesSeqScan i then [seqScanRec i.relationName] else []) ++
  (if qualifiesNestedLoop i then [nestedLoopRec] else [])

/-- PostgreSQLClient.generateRecommendations: own findings first, then the
children in reported order. -/
def generateRecommendations : PGPlan → List (List Char)
  | .mk i cs => nodeRecs i ++ cs.attach.flatMap
      (fun c => generateRecommendations c.1)
decreasing_by
  have := List.sizeOf_lt_of_mem c.2
  cases c
  simp at this ⊢
  omega

/-- Pre-order listing of a plan tree. -/
def preorder : PGPlan → List PGPlan
  | .mk i cs => PGPlan.mk i cs :: cs.attach.flatMap (fun c => preorder c.1)
decreasing_by
  have := List.sizeOf_lt_of_mem c.2
  cases c
  simp at this ⊢
  omega

/-! ## Claim theorems -/

/-- Claim C1 counterexample: validate applied to the statement DELETE FROM
users produces two error findings, not exactly one — the dangerous-operation
scan also fires on this input. -/
theorem C1_counterexample :
    ¬ ((validate ("DELETE FROM users".data)).errors.length = 1) := by decide

/-- Claim C1 as amended: on DELETE FROM users, validate returns
isValid false and exactly two error findings, a critical DANGEROUS_OPERATION
(for the DELETE-all-rows pattern) followed by a critical
DELETE_WITHOUT_WHERE; exactly one error carries the code
DELETE_WITHOUT_WHERE, and no warning is produced. -/
theorem C1_amended :
    (validate ("DELETE FROM users".data)).isValid = false ∧
    (validate ("DELETE FROM users".data)).errors.map Finding.code =
      ["DANGEROUS_OPERATION".data, "DELETE_WITHOUT_WHERE".data] ∧
    ((validate ("DELETE FROM users".data)).errors.all
      (fun e => e.severity = Severity.critical)) = true ∧
    ((validate ("DELETE FROM users".data)).errors.filter
      (fun e => e.code = "DELETE_WITHOUT_WHERE".data)).length = 1 ∧
    (validate ("DELETE FROM users".data)).warnings = [] := by decide

/-- Claim C8: on UPDATE users SET active equal false, validate returns
isValid true, no errors, and exactly one warning, whose code is
UPDATE_WITHOUT_WHERE. -/
theorem C8_update_without_where :
    (validate ("UPDATE users SET active=false".data)).isValid = true ∧
    (validate ("UPDATE users SET active=false".data)).errors = [] ∧
    (validate ("UPDATE users SET active=false".data)).warnings.map Finding.code =
      ["UPDATE_WITHOUT_WHERE".data] := by decide

/-- Splitting on a separator that does not occur returns the whole string as
the only part. -/
theorem splitOnCharL_of_not_mem {sep : Char} {s : List Char} (h : sep ∉ s) :
    splitOnCharL sep s = [s] := by
  induction s with
  | nil => rfl
  | cons c t ih =>
    have hc : ¬ c = sep := fun hcs => h (hcs ▸ List.mem_cons_self c t)
    have ht : sep ∉ t := fun hts => h (List.mem_cons_of_mem c hts)
    simp [splitOnCharL, hc, ih ht]

/-- Claim C10: a table name without a dot separator parses to the schema
public with the whole string as table, and the MySQL statistics lookup
therefore binds TABLE_SCHEMA to public for unqualified names. -/
theorem C10_parseTableName_public (tableName : List Char) (h : '.' ∉ tableName) :
    parseTableName tableName = ("public".data, tableName) ∧
    mysqlStatsSchemaParam tableName = "public".data := by
  have hsplit := splitOnCharL_of_not_mem h
  constructor
  · unfold parseTableName
    rw [hsplit]
    cases tableName with
    | nil => rfl
    | cons c t => cases t with
      | nil => rfl
      | cons d u => rfl
  · unfold mysqlStatsSchemaParam parseTableName
    rw [hsplit]
    cases tableName with
    | nil => rfl
    | cons c t => cases t with
      | nil => rfl
      | cons d u => rfl

/-- Claim C10 witness at the unqualified name users. -/
theorem C10_witness :
    parseTableName ("users".data) = ("public".data, "users".data) ∧
    mysqlStatsSchemaParam ("users".data) = "public".data :=
  C10_parseTableName_public ("users".data) (by decide)

/-- A successful association-list lookup returns one of the stored values. -/
theorem lookup_mem_snd {α β : Type} [DecidableEq α] {l : List (α × β)} {k : α}
    {v : β} (h : l.lookup k = some v) : v ∈ l.map (fun p => p.2) := by
  induction l with
  | nil => simp [List.lookup] at h
  | cons p t ih =>
    rw [List.lookup] at h
    by_cases hk : k = p.1
    · simp [hk] at h
      simp [h]
    · have hb : (k == p.1) = false := beq_eq_false_iff_ne.mpr hk
      rw [hb] at h
      simp [ih h]

/-- Lookup misses when the key is absent. -/
theorem lookup_eq_none_of_not_mem {α β : Type} [DecidableEq α]
    {l : List (α × β)} {k : α} (h : k ∉ l.map (fun p => p.1)) :
    l.lookup k = none := by
  induction l with
  | nil => rfl
  | cons p t ih =>
    rw [List.lookup]
    have hk : ¬ k = p.1 := fun he => h (by simp [he])
    have hb : (k == p.1) = false := beq_eq_false_iff_ne.mpr hk
    rw [hb]
    exact ih (fun hm => h (by simp at hm ⊢; exact Or.inr hm))

/-- Claim C2 counterexample: the SQLite mapping sends an unrecognized native
type to blob, not unknown. -/
theorem C2_counterexample :
    normalizeSQLiteType ("xyz".data) = "blob".data ∧
    ¬ (normalizeSQLiteType ("xyz".data) = "unknown".data) := by decide

/-- Claim C2 as amended: each engine's type mapping is a total function into
a fixed category list; unrecognized MySQL codes and PostgreSQL OIDs map to
unknown, while an unrecognized SQLite native type maps to blob, the
source's declared SQLite default. -/
theorem C2_amended :
    (∀ t, mapMySQLType t ∈ mysqlCategories) ∧
    (∀ oid, mapPostgreSQLType oid ∈ pgCategories) ∧
    (∀ ty, normalizeSQLiteType ty ∈ sqliteCategories) ∧
    (∀ n, n ∉ mysqlTypeKeys → mapMySQLType (some n) = "unknown".data) ∧
    (∀ oid, oid ∉ pgTypeKeys → mapPostgreSQLType oid = "unknown".data) ∧
    (∀ ty, sqliteTypeRecognized ty = false → normalizeSQLiteType ty = "blob".data) := by
  refine ⟨?_, ?_, ?_, ?_, ?_, ?_⟩
  · intro t
    cases t with
    | none => decide
    | some n =>
      show (List.lookup n mysqlTypeMap).getD ("unknown".data) ∈ mysqlCategories
      cases h : List.lookup n mysqlTypeMap with
      | none => decide
      | some v =>
        rw [Option.getD_some]
        exact List.mem_append_left _ (lookup_mem_snd h)
  · intro oid
    show (List.lookup oid pgTypeMap).getD ("unknown".data) ∈ pgCategories
    cases h : List.lookup oid pgTypeMap with
    | none => decide
    | some v =>
      rw [Option.getD_some]
      exact List.mem_append_left _ (lookup_mem_snd h)
  · intro ty
    simp only [normalizeSQLiteType]
    split_ifs <;> decide
  · intro n hn
    show (List.lookup n mysqlTypeMap).getD ("unknown".data) = "unknown".data
    rw [lookup_eq_none_of_not_mem hn]
    rfl
  · intro oid hoid
    show (List.lookup oid pgTypeMap).getD ("unknown".data) = "unknown".data
    rw [lookup_eq_none_of_not_mem hoid]
    rfl
  · intro ty h
    simp only [sqliteTypeRecognized, Bool.or_eq_false_iff] at h
    obtain ⟨⟨⟨⟨⟨⟨⟨⟨⟨⟨⟨⟨h1, h2⟩, h3⟩, h4⟩, h5⟩, h6⟩, h7⟩, h8⟩, h9⟩, h10⟩, h11⟩, h12⟩, h13⟩ := h
    simp [normalizeSQLiteType, h1, h2, h3, h4, h5, h6, h7, h8, h9, h10, h11, h12, h13]

/-- Claim C2 witness: the amended theorem applied at the unrecognized MySQL
code 6 and the unrecognized SQLite native type xyz. -/
theorem C2_witness :
    mapMySQLType (some 6) = "unknown".data ∧
    normalizeSQLiteType ("xyz".data) = "blob".data :=
  ⟨C2_amended.2.2.2.1 6 (by decide), C2_amended.2.2.2.2.2 ("xyz".data) (by decide)⟩

/-- Claim C3 counterexample: a requested maxRows of 0 is falsy and falls
back to the default of 1000, so the returned row list can be longer than
the requested bound — here two rows come back although 0 were requested. -/
theorem C3_counterexample :
    ¬ (((mysqlLimitResult [0, 1] (some 0)).rows.length : Int) ≤ 0) := by decide

/-- Claim C3 as amended: the returned row list is always bounded by the
normalized limit, and for a requested maxRows N inside the accepted range
1..10000 that normalized limit is N itself, so at most N rows come back
even when the engine produced more; the reported rowCount is the engine's
full row count regardless (for the PostgreSQL client it is the
driver-reported count).  Requests of 0, negative values, or values above
10000 are normalized to 1000 or 10000 first, so only the normalized bound
holds for them. -/
theorem C3_amended {ρ : Type} (engineRows : List ρ) (maxRows : Option Int)
    (N : Int) (reported : Option Nat) :
    (sliceRows engineRows maxRows).length ≤ (normalizeMaxRows maxRows).toNat ∧
    (1 ≤ N → N ≤ 10000 →
      ((mysqlLimitResult engineRows (some N)).rows.length : Int) ≤ N ∧
      ((sqliteSelectLimitResult engineRows (some N)).rows.length : Int) ≤ N ∧
      ((pgLimitResult engineRows reported (some N)).rows.length : Int) ≤ N) ∧
    (mysqlLimitResult engineRows maxRows).rowCount = engineRows.length ∧
    (sqliteSelectLimitResult engineRows maxRows).rowCount = engineRows.length ∧
    (pgLimitResult engineRows reported maxRows).rowCount = reported.getD 0 := by
  have hslice : ∀ (o : Option Int),
      (sliceRows engineRows o).length ≤ (normalizeMaxRows o).toNat := by
    intro o
    simp [sliceRows]
  refine ⟨hslice maxRows, ?_, rfl, rfl, rfl⟩
  intro h1 h2
  have hnorm : normalizeMaxRows (some N) = N := by
    unfold normalizeMaxRows
    have hne : ¬ N = 0 := by omega
    have hnlt : ¬ N < 0 := by omega
    have hngt : ¬ N > (10000 : Int) := by omega
    simp [hne, hnlt, hngt]
  have hb : (sliceRows engineRows (some N)).length ≤ (normalizeMaxRows (some N)).toNat :=
    hslice (some N)
  rw [hnorm] at hb
  have hcast : ((sliceRows engineRows (some N)).length : Int) ≤ N := by
    omega
  exact ⟨hcast, hcast, hcast⟩

/-- Claim C3 witness: the amended theorem applied at three engine rows and
a requested limit of 2. -/
theorem C3_witness :
    ((mysqlLimitResult [0, 1, 2] (some 2)).rows.length : Int) ≤ 2 :=
  ((C3_amended [0, 1, 2] (some 2) 2 none).2.1 (by decide) (by decide)).1

/-- Invariant preservation for the grouping fold, generalized over the
starting map state. -/
theorem groupFold_inv_aux {α κ β : Type} [DecidableEq κ] (key : α → κ)
    (mkEntry : α → β) (push : α → β → β) (P : β → Prop)
    (hmk : ∀ a, P (push a (mkEntry a))) (hpush : ∀ a b, P b → P (push a b))
    (rows : List α) :
    ∀ (st : List (κ × β)), (∀ p ∈ st, P p.2) →
      ∀ p ∈ rows.foldl (fun st a =>
          if (st.lookup (key a)).isSome then
            st.map (fun q => if q.1 = key a then (q.1, push a q.2) else q)
          else st ++ [(key a, push a (mkEntry a))]) st, P p.2 := by
  induction rows with
  | nil =>
    intro st hst p hp
    exact hst p hp
  | cons a rows ih =>
    intro st hst p hp
    rw [List.foldl_cons] at hp
    refine ih _ ?_ p hp
    intro q hq
    by_cases hc : (st.lookup (key a)).isSome
    · rw [if_pos hc] at hq
      obtain ⟨r, hr, hqr⟩ := List.mem_map.mp hq
      by_cases hk : r.1 = key a
      · rw [← hqr, if_pos hk]
        exact hpush a r.2 (hst r hr)
      · rw [← hqr, if_neg hk]
        exact hst r hr
    · rw [if_neg hc] at hq
      rcases List.mem_append.mp hq with h1 | h2
      · exact hst q h1
      · rw [List.mem_singleton] at h2
        rw [h2]
        exact hmk a

/-- Every entry of a grouping fold satisfies any property established by the
first push and preserved by later pushes. -/
theorem groupFold_entry_prop {α κ β : Type} [DecidableEq κ] (key : α → κ)
    (mkEntry : α → β) (push : α → β → β) (P : β → Prop)
    (hmk : ∀ a, P (push a (mkEntry a))) (hpush : ∀ a b, P b → P (push a b))
    (rows : List α) :
    ∀ p ∈ groupFold key mkEntry push rows, P p.2 :=
  groupFold_inv_aux key mkEntry push P hmk hpush rows []
    (fun p hp => absurd hp (List.not_mem_nil p))

/-- Claim C7: every foreign key any of the three adapters extracts has as
many local columns as referenced columns — each catalog row pushes exactly
one of each. -/
theorem C7_fk_cardinality :
    (∀ (rows : List MySQLFKRow) (fk : ForeignKeyConstraint),
      fk ∈ mysqlForeignKeysFold rows →
      fk.columns.length = fk.referencedColumns.length) ∧
    (∀ (tableName : List Char) (rows : List SQLiteFKRow) (fk : ForeignKeyConstraint),
      fk ∈ sqliteForeignKeysFold tableName rows →
      fk.columns.length = fk.referencedColumns.length) ∧
    (∀ (rows : List PGFKRow) (fk : ForeignKeyConstraint),
      fk ∈ pgForeignKeysFold rows →
      fk.columns.length = fk.referencedColumns.length) := by
  refine ⟨?_, ?_, ?_⟩
  · intro rows fk hfk
    obtain ⟨p, hp, hpe⟩ := List.mem_map.mp hfk
    rw [← hpe]
    exact groupFold_entry_prop _ mysqlFKEntry mysqlFKPush
      (fun b => b.columns.length = b.referencedColumns.length)
      (fun a => by simp [mysqlFKPush, mysqlFKEntry])
      (fun a b hb => by simp [mysqlFKPush, hb]) rows p hp
  · intro tableName rows fk hfk
    obtain ⟨p, hp, hpe⟩ := List.mem_map.mp hfk
    rw [← hpe]
    exact groupFold_entry_prop _ (sqliteFKEntry tableName) sqliteFKPush
      (fun b => b.columns.length = b.referencedColumns.length)
      (fun a => by simp [sqliteFKPush, sqliteFKEntry])
      (fun a b hb => by simp [sqliteFKPush, hb]) rows p hp
  · intro rows fk hfk
    obtain ⟨p, hp, hpe⟩ := List.mem_map.mp hfk
    rw [← hpe]
    exact groupFold_entry_prop _ pgFKEntry pgFKPush
      (fun b => b.columns.length = b.referencedColumns.length)
      (fun a => by simp [pgFKPush, pgFKEntry])
      (fun a b hb => by simp [pgFKPush, hb]) rows p hp

/-- Claim C7 witness: the theorem applied to a one-row MySQL catalog
result. -/
theorem C7_witness :
    ({ name := "fk1".data, columns := ["a".data],
       referencedTable := "t2".data, referencedSchema := "s".data,
       referencedColumns := ["b".data], onDelete := "CASCADE".data,
       onUpdate := "RESTRICT".data } : ForeignKeyConstraint).columns.length =
    ({ name := "fk1".data, columns := ["a".data],
       referencedTable := "t2".data, referencedSchema := "s".data,
       referencedColumns := ["b".data], onDelete := "CASCADE".data,
       onUpdate := "RESTRICT".data } : ForeignKeyConstraint).referencedColumns.length :=
  C7_fk_cardinality.1
    [{ CONSTRAINT_NAME := "fk1".data, COLUMN_NAME := "a".data,
       REFERENCED_TABLE_SCHEMA := "s".data, REFERENCED_TABLE_NAME := "t2".data,
       REFERENCED_COLUMN_NAME := "b".data, UPDATE_RULE := "RESTRICT".data,
       DELETE_RULE := "CASCADE".data }] _ (by decide)

/-- Every error finding validate produces carries critical severity (both
error sources push critical findings only). -/
theorem validate_errors_critical (q : List Char) :
    ∀ f ∈ (validate q).errors, f.severity = Severity.critical := by
  intro f hf
  have he : (validate q).errors =
      dangerErrorsOf (normQ q) ++ whereErrorsOf (detectQueryType q) (normQ q) := rfl
  rw [he] at hf
  rcases List.mem_append.mp hf with h | h
  · obtain ⟨op, _, hfe⟩ := List.mem_map.mp h
    rw [← hfe]
    rfl
  · unfold whereErrorsOf at h
    by_cases hc : (isMutationQuery (detectQueryType q) &&
        !containsSub (normQ q) ("WHERE".data)) = true
    · rw [if_pos hc] at h
      revert h
      cases detectQueryType q <;> intro h <;>
        first
        | exact absurd h (List.not_mem_nil f)
        | (rw [List.mem_singleton] at h; rw [h]; rfl)
    · rw [if_neg hc] at h
      exact absurd h (List.not_mem_nil f)

/-- Every warning finding validate produces carries warning or info
severity (no warning source pushes error or critical findings). -/
theorem validate_warnings_not_error (q : List Char) :
    ∀ f ∈ (validate q).warnings,
      f.severity = Severity.warning ∨ f.severity = Severity.info := by
  intro f hf
  have hw : (validate q).warnings =
      detectInjectionPatterns q ++ whereWarningsOf (detectQueryType q) (normQ q) ++
      selectStarWarningsOf (normQ q) ++
      missingLimitWarningsOf (detectQueryType q) (normQ q) ++
      cartesianWarningsOf (normQ q) ++ expensiveWarningsOf (normQ q) := rfl
  rw [hw] at hf
  rcases List.mem_append.mp hf with h | h
  case inr =>
    obtain ⟨op, _, hfe⟩ := List.mem_map.mp h
    rw [← hfe]
    exact Or.inl rfl
  rcases List.mem_append.mp h with h | h
  case inr =>
    unfold cartesianWarningsOf at h
    by_cases hc : hasCartesianProduct (normQ q) = true
    · rw [if_pos hc, List.mem_singleton] at h
      rw [h]
      exact Or.inl rfl
    · rw [if_neg hc] at h
      exact absurd h (List.not_mem_nil f)
  rcases List.mem_append.mp h with h | h
  case inr =>
    unfold missingLimitWarningsOf at h
    by_cases hc : (detectQueryType q = QueryType.SELECT &&
        !containsSub (normQ q) ("LIMIT".data)) = true
    · rw [if_pos hc, List.mem_singleton] at h
      rw [h]
      exact Or.inr rfl
    · rw [if_neg hc] at h
      exact absurd h (List.not_mem_nil f)
  rcases List.mem_append.mp h with h | h
  case inr =>
    unfold selectStarWarningsOf at h
    by_cases hc : containsSub (normQ q) ("SELECT *".data) = true
    · rw [if_pos hc, List.mem_singleton] at h
      rw [h]
      exact Or.inr rfl
    · rw [if_neg hc] at h
      exact absurd h (List.not_mem_nil f)
  rcases List.mem_append.mp h with h | h
  case inr =>
    unfold whereWarningsOf at h
    by_cases hc : (isMutationQuery (detectQueryType q) &&
        !containsSub (normQ q) ("WHERE".data)) = true
    · rw [if_pos hc] at h
      revert h
      cases detectQueryType q <;> intro h <;>
        first
        | exact absurd h (List.not_mem_nil f)
        | (rw [List.mem_singleton] at h; rw [h]; exact Or.inl rfl)
    · rw [if_neg hc] at h
      exact absurd h (List.not_mem_nil f)
  case inl =>
    obtain ⟨pm, _, hfe⟩ := List.mem_map.mp (by exact h)
    rw [← hfe]
    exact Or.inl rfl

/-- Claim C5: confirmation is required exactly when the query is a mutation,
a dangerous-operation pattern matched, or some produced finding has error or
critical severity. -/
theorem C5_requiresConfirmation (q : List Char) :
    (validate q).metadata.requiresConfirmation = true ↔
    ((validate q).metadata.isMutation = true ∨
     detectDangerousOperations (normQ q) ≠ [] ∨
     ∃ f ∈ (validate q).errors ++ (validate q).warnings,
       (f.severity = Severity.error ∨ f.severity = Severity.critical)) := by
  have hrc : (validate q).metadata.requiresConfirmation =
      (isMutationQuery (detectQueryType q) ||
       decide ((detectDangerousOperations (normQ q)).length > 0) ||
       decide (((validate q).errors).length > 0)) := rfl
  have him : (validate q).metadata.isMutation = isMutationQuery (detectQueryType q) := rfl
  rw [hrc, him]
  simp only [Bool.or_eq_true, decide_eq_true_eq]
  constructor
  · rintro ((hm | hd) | he)
    · exact Or.inl hm
    · refine Or.inr (Or.inl ?_)
      intro hnil
      rw [hnil] at hd
      simp at hd
    · refine Or.inr (Or.inr ?_)
      obtain ⟨f, hf⟩ := List.exists_mem_of_ne_nil _ (List.length_pos.mp he)
      exact ⟨f, List.mem_append_left _ hf,
        Or.inr (validate_errors_critical q f hf)⟩
  · rintro (hm | hd | ⟨f, hf, hsev⟩)
    · exact Or.inl (Or.inl hm)
    · exact Or.inl (Or.inr (List.length_pos.mpr hd))
    · rcases List.mem_append.mp hf with hfe | hfw
      · exact Or.inr (List.length_pos.mpr (List.ne_nil_of_mem hfe))
      · rcases validate_warnings_not_error q f hfw with hw | hw <;>
          rcases hsev with hs | hs <;> rw [hw] at hs <;> cases hs

/-- Claim C5 witness: the theorem applied to a DDL mutation. -/
theorem C5_witness :
    (validate ("DROP TABLE t".data)).metadata.requiresConfirmation = true :=
  (C5_requiresConfirmation ("DROP TABLE t".data)).mpr (Or.inl (by decide))

/-- Claim C6: validate is a total function — the embedding returns, for any
input text, a verdict whose validity flag mirrors emptiness of the error
list and whose metadata fields are all computed from the input by the
documented subroutines. -/
theorem C6_always_returns (q : List Char) :
    ((validate q).isValid = true ↔ (validate q).errors = []) ∧
    (validate q).metadata.queryType = detectQueryType q ∧
    (validate q).metadata.isMutation = isMutationQuery (detectQueryType q) ∧
    (validate q).metadata.tablesAccessed = extractTableNames q ∧
    (validate q).metadata.estimatedComplexity = estimateComplexity (normQ q) ∧
    (validate q).errors =
      dangerErrorsOf (normQ q) ++ whereErrorsOf (detectQueryType q) (normQ q) ∧
    (validate q).warnings =
      detectInjectionPatterns q ++ whereWarningsOf (detectQueryType q) (normQ q) ++
      selectStarWarningsOf (normQ q) ++
      missingLimitWarningsOf (detectQueryType q) (normQ q) ++
      cartesianWarningsOf (normQ q) ++ expensiveWarningsOf (normQ q) := by
  refine ⟨?_, rfl, rfl, rfl, by simp only [validate], rfl, rfl⟩
  simp only [validate, decide_eq_true_eq, List.length_eq_zero]

/-- Claim C6 witness: the theorem applied to an arbitrary non-SQL input. -/
theorem C6_witness :
    (validate ("hello world".data)).isValid = true :=
  (C6_always_returns ("hello world".data)).1.mpr (by decide)

/-- flatMap over an attached list forgets the membership proofs. -/
theorem flatMap_attach_eq {α β : Type} (cs : List α) (f : α → List β) :
    cs.attach.flatMap (fun c => f c.1) = cs.flatMap f := by
  rw [List.flatMap_def, List.flatMap_def, List.attach_map_val cs f]

/-- Induction over a plan tree through its child list. -/
theorem PGPlan.inductionOn {P : PGPlan → Prop}
    (h : ∀ i cs, (∀ c ∈ cs, P c) → P (PGPlan.mk i cs)) : ∀ t, P t
  | .mk i cs => h i cs (fun c hc => PGPlan.inductionOn h c)
decreasing_by
  have := List.sizeOf_lt_of_mem hc
  simp
  omega

/-- Recognizer for the add-an-index recommendation text. -/
def isAddIndexRec (m : List Char) : Bool :=
  ("Consider adding an index on ".data).isPrefixOf m

/-- The sequential-scan recommendation always starts with the add-an-index
prefix, whatever the relation name. -/
theorem isAddIndexRec_seqScanRec (r : Option (List Char)) :
    isAddIndexRec (seqScanRec r) = true := by
  unfold isAddIndexRec seqScanRec
  rw [List.append_assoc]
  exact List.isPrefixOf_iff_prefix.mpr (List.prefix_append _ _)

/-- The singleton sequential-scan recommendation survives the filter. -/
theorem filter_seqScanRec (r : Option (List Char)) :
    List.filter isAddIndexRec [seqScanRec r] = [seqScanRec r] := by
  simp [List.filter_cons, isAddIndexRec_seqScanRec]

/-- The nested-loop recommendation is not an add-an-index text. -/
theorem filter_nestedLoopRec :
    List.filter isAddIndexRec [nestedLoopRec] = [] := by decide

/-- One node contributes exactly one add-an-index recommendation when it
qualifies as a large sequential scan, and none otherwise. -/
theorem nodeRecs_filter_addIndex (i : PGPlanInfo) :
    ((nodeRecs i).filter isAddIndexRec).length =
      (if qualifiesSeqScan i then 1 else 0) := by
  unfold nodeRecs
  rw [List.filter_append]
  by_cases h1 : qualifiesSeqScan i = true <;>
    by_cases h2 : qualifiesNestedLoop i = true <;>
      simp [h1, h2, filter_seqScanRec, filter_nestedLoopRec]

/-- Flattening per-node recommendations and filtering for add-an-index
counts exactly the qualifying nodes. -/
theorem flatMap_nodeRecs_filter (ns : List PGPlan) :
    ((ns.flatMap (fun n => nodeRecs n.info)).filter isAddIndexRec).length =
    (ns.filter (fun n => qualifiesSeqScan n.info)).length := by
  induction ns with
  | nil => rfl
  | cons a t ih =>
    rw [List.flatMap_cons, List.filter_append, List.length_append, ih,
      nodeRecs_filter_addIndex, List.filter_cons]
    by_cases h : qualifiesSeqScan a.info = true
    · simp only [h, if_pos]
      simp
      omega
    · simp [h]

/-- Children whose recommendations agree with their pre-order flattening
flatten to the pre-order flattening of the concatenated traversals. -/
theorem flatMap_gen_children (cs : List PGPlan)
    (ih : ∀ c ∈ cs, generateRecommendations c =
      (preorder c).flatMap (fun n => nodeRecs n.info)) :
    cs.flatMap generateRecommendations =
      (cs.flatMap preorder).flatMap (fun n => nodeRecs n.info) := by
  induction cs with
  | nil => rfl
  | cons c cs ihc =>
    rw [List.flatMap_cons, List.flatMap_cons, List.flatMap_append,
      ih c (List.mem_cons_self c cs),
      ihc (fun d hd => ih d (List.mem_cons_of_mem c hd))]

/-- Claim C9: the PostgreSQL recommendation pass equals the pre-order
flattening of per-node findings — one finding per occurrence, never
deduplicated, in traversal order — and the number of add-an-index
recommendations equals the number of qualifying sequential-scan nodes. -/
theorem C9_recommendations_preorder (t : PGPlan) :
    generateRecommendations t = (preorder t).flatMap (fun n => nodeRecs n.info) ∧
    ((generateRecommendations t).filter isAddIndexRec).length =
      ((preorder t).filter (fun n => qualifiesSeqScan n.info)).length := by
  have h1 : ∀ u, generateRecommendations u =
      (preorder u).flatMap (fun n => nodeRecs n.info) := by
    intro u
    induction u using PGPlan.inductionOn with
    | h i cs ih =>
      rw [generateRecommendations, preorder, flatMap_attach_eq, flatMap_attach_eq,
        List.flatMap_cons]
      have hinfo : nodeRecs (PGPlan.mk i cs).info = nodeRecs i := rfl
      rw [hinfo]
      congr 1
      exact flatMap_gen_children cs ih
  refine ⟨h1 t, ?_⟩
  rw [h1 t, flatMap_nodeRecs_filter]

/-! ## Permutation behaviour of the grouping fold (claim C4) -/

/-- Projected content of the entry stored at a key, empty when absent. -/
def projLookup {κ β γ : Type} [DecidableEq κ] (proj : β → List γ)
    (st : List (κ × β)) (k : κ) : List γ :=
  match st.lookup k with
  | some b => proj b
  | none => []

/-- Natural keys of the map state, in insertion order. -/
def keysOf {κ β : Type} (st : List (κ × β)) : List κ :=
  st.map (fun p => p.1)

/-- Lookup commutes with the in-place update of one key. -/
theorem lookup_map_keyUpd {κ β : Type} [DecidableEq κ] (g : β → β) (ka : κ) :
    ∀ (st : List (κ × β)) (k : κ),
      (st.map (fun q => if q.1 = ka then (q.1, g q.2) else q)).lookup k =
      (st.lookup k).map (fun b => if k = ka then g b else b) := by
  intro st
  induction st with
  | nil => intro k; rfl
  | cons p st ih =>
    intro k
    obtain ⟨pk, pb⟩ := p
    by_cases hpk : pk = ka <;> by_cases hkp : k = pk
    · have hka : k = ka := hkp.trans hpk
      simp [List.lookup_cons, hpk, hkp, hka]
    · have hka : ¬ k = ka := fun h => hkp (h.trans hpk.symm)
      have b1 : (k == ka) = false := beq_eq_false_iff_ne.mpr hka
      simp [List.lookup_cons, hpk, b1, ih k, hka]
    · have hka : ¬ k = ka := fun h => hpk (hkp.symm.trans h)
      simp [List.lookup_cons, hpk, hkp, hka]
    · have b1 : (k == pk) = false := beq_eq_false_iff_ne.mpr hkp
      simp [List.lookup_cons, hpk, b1, ih k]

/-- A lookup succeeds exactly when the key occurs among the stored keys. -/
theorem lookup_isSome_iff {κ β : Type} [DecidableEq κ] :
    ∀ (st : List (κ × β)) (k : κ), (st.lookup k).isSome = true ↔ k ∈ keysOf st := by
  intro st
  induction st with
  | nil => intro k; simp [keysOf, List.lookup]
  | cons p st ih =>
    intro k
    obtain ⟨pk, pb⟩ := p
    by_cases hkp : k = pk
    · simp [List.lookup_cons, hkp, keysOf]
    · have b1 : (k == pk) = false := beq_eq_false_iff_ne.mpr hkp
      simp [List.lookup_cons, b1, keysOf, hkp] at ih ⊢

/-- One grouping step appends the new element to the projected content of
its key and leaves every other key unchanged. -/
theorem projLookup_step {α κ β γ : Type} [DecidableEq κ] (key : α → κ)
    (mkEntry : α → β) (push : α → β → β) (proj : β → List γ) (f : α → γ)
    (hmk : ∀ a, proj (mkEntry a) = [])
    (hpush : ∀ a b, proj (push a b) = proj b ++ [f a])
    (st : List (κ × β)) (a : α) (k : κ) :
    projLookup proj
      (if (st.lookup (key a)).isSome then
        st.map (fun q => if q.1 = key a then (q.1, push a q.2) else q)
      else st ++ [(key a, push a (mkEntry a))]) k =
    projLookup proj st k ++ (if key a = k then [f a] else []) := by
  by_cases hc : (st.lookup (key a)).isSome = true
  · rw [if_pos hc]
    unfold projLookup
    rw [lookup_map_keyUpd]
    by_cases hk : k = key a
    · cases hlk : st.lookup k with
      | none =>
        rw [hk] at hlk
        rw [hlk] at hc
        simp at hc
      | some b => simp [hlk, hk, hpush]
    · have hka : ¬ key a = k := fun h => hk h.symm
      cases hlk : st.lookup k with
      | none => simp [hlk, hk, hka]
      | some b => simp [hlk, hk, hka]
  · rw [if_neg hc]
    unfold projLookup
    rw [List.lookup_append]
    by_cases hk : k = key a
    · have hnone : st.lookup k = none := by
        cases hlk : st.lookup k with
        | none => rfl
        | some b =>
          rw [hk] at hlk
          rw [hlk] at hc
          simp at hc
      subst hk
      rw [hnone]
      simp [List.lookup_cons, hpush, hmk]
    · have b1 : (k == key a) = false := beq_eq_false_iff_ne.mpr hk
      have hka : ¬ key a = k := fun h => hk h.symm
      cases hlk : st.lookup k with
      | none => simp [List.lookup_cons, b1, hka]
      | some b => simp [List.lookup_cons, b1, hka]

/-- Characterization of the grouping fold: the projected content stored at a
key is the in-order image of exactly the rows carrying that key. -/
theorem groupFold_projLookup_aux {α κ β γ : Type} [DecidableEq κ] (key : α → κ)
    (mkEntry : α → β) (push : α → β → β) (proj : β → List γ) (f : α → γ)
    (hmk : ∀ a, proj (mkEntry a) = [])
    (hpush : ∀ a b, proj (push a b) = proj b ++ [f a])
    (rows : List α) :
    ∀ (st : List (κ × β)) (k : κ),
      projLookup proj (rows.foldl (fun st a =>
        if (st.lookup (key a)).isSome then
          st.map (fun q => if q.1 = key a then (q.1, push a q.2) else q)
        else st ++ [(key a, push a (mkEntry a))]) st) k =
      projLookup proj st k ++ (rows.filter (fun a => decide (key a = k))).map f := by
  induction rows with
  | nil => intro st k; simp
  | cons a rows ih =>
    intro st k
    rw [List.foldl_cons, ih, projLookup_step key mkEntry push proj f hmk hpush,
      List.filter_cons]
    by_cases hk : key a = k
    · simp [hk, List.append_assoc]
    · simp [hk]

/-- The characterization specialized to the empty starting state. -/
theorem groupFold_projLookup {α κ β γ : Type} [DecidableEq κ] (key : α → κ)
    (mkEntry : α → β) (push : α → β → β) (proj : β → List γ) (f : α → γ)
    (hmk : ∀ a, proj (mkEntry a) = [])
    (hpush : ∀ a b, proj (push a b) = proj b ++ [f a])
    (rows : List α) (k : κ) :
    projLookup proj (groupFold key mkEntry push rows) k =
      (rows.filter (fun a => decide (key a = k))).map f := by
  have h := groupFold_projLookup_aux key mkEntry push proj f hmk hpush rows [] k
  unfold groupFold
  rw [h]
  simp [projLookup, List.lookup]

/-- One grouping step keeps the key list unless it appends a fresh key. -/
theorem keysOf_step {α κ β : Type} [DecidableEq κ] (key : α → κ)
    (mkEntry : α → β) (push : α → β → β) (st : List (κ × β)) (a : α) :
    keysOf (if (st.lookup (key a)).isSome then
        st.map (fun q => if q.1 = key a then (q.1, push a q.2) else q)
      else st ++ [(key a, push a (mkEntry a))]) =
    (if (st.lookup (key a)).isSome then keysOf st else keysOf st ++ [key a]) := by
  by_cases hc : (st.lookup (key a)).isSome = true
  · rw [if_pos hc, if_pos hc]
    unfold keysOf
    rw [List.map_map]
    refine List.map_congr_left ?_
    intro q _
    by_cases hq : q.1 = key a <;> simp [hq]
  · rw [if_neg hc, if_neg hc]
    simp [keysOf]

/-- Membership in the grouped keys equals membership among the row keys. -/
theorem keysOf_groupFold_mem_aux {α κ β : Type} [DecidableEq κ] (key : α → κ)
    (mkEntry : α → β) (push : α → β → β) (rows : List α) :
    ∀ (st : List (κ × β)) (k : κ),
      k ∈ keysOf (rows.foldl (fun st a =>
        if (st.lookup (key a)).isSome then
          st.map (fun q => if q.1 = key a then (q.1, push a q.2) else q)
        else st ++ [(key a, push a (mkEntry a))]) st) ↔
      (k ∈ keysOf st ∨ k ∈ rows.map key) := by
  induction rows with
  | nil => intro st k; simp
  | cons a rows ih =>
    intro st k
    rw [List.foldl_cons, ih]
    rw [keysOf_step key mkEntry push st a]
    by_cases hc : (st.lookup (key a)).isSome = true
    · rw [if_pos hc]
      have hmem : key a ∈ keysOf st := (lookup_isSome_iff st (key a)).mp hc
      simp only [List.map_cons, List.mem_cons]
      constructor
      · rintro (h | h)
        · exact Or.inl h
        · exact Or.inr (Or.inr h)
      · rintro (h | h | h)
        · exact Or.inl h
        · exact Or.inl (h ▸ hmem)
        · exact Or.inr h
    · rw [if_neg hc]
      simp only [List.map_cons, List.mem_cons, List.mem_append,
        List.mem_singleton]
      tauto

/-- The grouped key list never repeats a key. -/
theorem keysOf_groupFold_nodup_aux {α κ β : Type} [DecidableEq κ] (key : α → κ)
    (mkEntry : α → β) (push : α → β → β) (rows : List α) :
    ∀ (st : List (κ × β)), (keysOf st).Nodup →
      (keysOf (rows.foldl (fun st a =>
        if (st.lookup (key a)).isSome then
          st.map (fun q => if q.1 = key a then (q.1, push a q.2) else q)
        else st ++ [(key a, push a (mkEntry a))]) st)).Nodup := by
  induction rows with
  | nil => intro st h; exact h
  | cons a rows ih =>
    intro st hst
    rw [List.foldl_cons]
    refine ih _ ?_
    rw [keysOf_step key mkEntry push st a]
    by_cases hc : (st.lookup (key a)).isSome = true
    · rw [if_pos hc]
      exact hst
    · rw [if_neg hc]
      have hnot : key a ∉ keysOf st := fun hmem =>
        hc ((lookup_isSome_iff st (key a)).mpr hmem)
      simp [List.nodup_append, hst, hnot]

/-- Every stored pair of a grouping fold satisfies any property established
by the first push of a key and preserved by later pushes. -/
theorem groupFold_pair_prop_aux {α κ β : Type} [DecidableEq κ] (key : α → κ)
    (mkEntry : α → β) (push : α → β → β) (P : κ × β → Prop)
    (hmk : ∀ a, P (key a, push a (mkEntry a)))
    (hpush : ∀ (a : α) (k : κ) (b : β), P (k, b) → P (k, push a b))
    (rows : List α) :
    ∀ (st : List (κ × β)), (∀ p ∈ st, P p) →
      ∀ p ∈ rows.foldl (fun st a =>
          if (st.lookup (key a)).isSome then
            st.map (fun q => if q.1 = key a then (q.1, push a q.2) else q)
          else st ++ [(key a, push a (mkEntry a))]) st, P p := by
  induction rows with
  | nil =>
    intro st hst p hp
    exact hst p hp
  | cons a rows ih =>
    intro st hst p hp
    rw [List.foldl_cons] at hp
    refine ih _ ?_ p hp
    intro q hq
    by_cases hc : (st.lookup (key a)).isSome
    · rw [if_pos hc] at hq
      obtain ⟨r, hr, hqr⟩ := List.mem_map.mp hq
      by_cases hk : r.1 = key a
      · rw [← hqr, if_pos hk]
        exact hpush a r.1 r.2 (hst r hr)
      · rw [← hqr, if_neg hk]
        exact hst r hr
    · rw [if_neg hc] at hq
      rcases List.mem_append.mp hq with h1 | h2
      · exact hst q h1
      · rw [List.mem_singleton] at h2
        rw [h2]
        exact hmk a

/-- The pair property specialized to the empty starting state. -/
theorem groupFold_pair_prop {α κ β : Type} [DecidableEq κ] (key : α → κ)
    (mkEntry : α → β) (push : α → β → β) (P : κ × β → Prop)
    (hmk : ∀ a, P (key a, push a (mkEntry a)))
    (hpush : ∀ (a : α) (k : κ) (b : β), P (k, b) → P (k, push a b))
    (rows : List α) :
    ∀ p ∈ groupFold key mkEntry push rows, P p :=
  groupFold_pair_prop_aux key mkEntry push P hmk hpush rows []
    (fun p hp => absurd hp (List.not_mem_nil p))

/-- A key is grouped exactly when some row carries it. -/
theorem keysOf_groupFold_mem {α κ β : Type} [DecidableEq κ] (key : α → κ)
    (mkEntry : α → β) (push : α → β → β) (rows : List α) (k : κ) :
    k ∈ keysOf (groupFold key mkEntry push rows) ↔ k ∈ rows.map key := by
  have h := keysOf_groupFold_mem_aux key mkEntry push rows [] k
  unfold groupFold
  rw [h]
  simp [keysOf]

/-- Grouped keys are distinct. -/
theorem keysOf_groupFold_nodup {α κ β : Type} [DecidableEq κ] (key : α → κ)
    (mkEntry : α → β) (push : α → β → β) (rows : List α) :
    (keysOf (groupFold key mkEntry push rows)).Nodup :=
  keysOf_groupFold_nodup_aux key mkEntry push rows [] (by simp [keysOf])

/-- Permuting the catalog rows permutes the grouped key list. -/
theorem keysOf_groupFold_perm {α κ β : Type} [DecidableEq κ] (key : α → κ)
    (mkEntry : α → β) (push : α → β → β) {l1 l2 : List α} (h : l1.Perm l2) :
    (keysOf (groupFold key mkEntry push l1)).Perm
      (keysOf (groupFold key mkEntry push l2)) := by
  refine (List.perm_ext_iff_of_nodup
    (keysOf_groupFold_nodup key mkEntry push l1)
    (keysOf_groupFold_nodup key mkEntry push l2)).mpr ?_
  intro k
  rw [keysOf_groupFold_mem key mkEntry push l1 k,
    keysOf_groupFold_mem key mkEntry push l2 k]
  exact (h.map key).mem_iff

/-- The column built from one MySQL STATISTICS row. -/
def indexColOf (r : MySQLIndexRow) : IndexColumn :=
  { name := r.COLUMN_NAME
    order := if r.COLLATION = "A".data then SortOrder.ASC else SortOrder.DESC }

/-- Columns stored for one index name after grouping. -/
def indexColumnsFor (rows : List MySQLIndexRow) (k : List Char) : List IndexColumn :=
  projLookup IndexSchema.columns (mysqlIndexGroups rows) k

/-- Columns stored for one constraint name after the MySQL FK grouping. -/
def fkColumnsFor (rows : List MySQLFKRow) (k : List Char) : List (List Char) :=
  projLookup ForeignKeyConstraint.columns (mysqlFKGroups rows) k

/-- Referenced columns stored for one constraint name after grouping. -/
def fkRefColumnsFor (rows : List MySQLFKRow) (k : List Char) : List (List Char) :=
  projLookup ForeignKeyConstraint.referencedColumns (mysqlFKGroups rows) k

/-- The grouped index columns are the in-order image of that index's rows. -/
theorem indexColumnsFor_eq (rows : List MySQLIndexRow) (k : List Char) :
    indexColumnsFor rows k =
      (rows.filter (fun r => decide (r.INDEX_NAME = k))).map indexColOf :=
  groupFold_projLookup _ mysqlIndexEntry mysqlIndexPush IndexSchema.columns
    indexColOf (fun _ => rfl) (fun _ _ => rfl) rows k

/-- The grouped local FK columns are the in-order image of that
constraint's rows. -/
theorem fkColumnsFor_eq (rows : List MySQLFKRow) (k : List Char) :
    fkColumnsFor rows k =
      (rows.filter (fun r => decide (r.CONSTRAINT_NAME = k))).map
        (fun r => r.COLUMN_NAME) :=
  groupFold_projLookup _ mysqlFKEntry mysqlFKPush ForeignKeyConstraint.columns
    (fun r => r.COLUMN_NAME) (fun _ => rfl) (fun _ _ => rfl) rows k

/-- The grouped referenced FK columns are the in-order image of that
constraint's rows. -/
theorem fkRefColumnsFor_eq (rows : List MySQLFKRow) (k : List Char) :
    fkRefColumnsFor rows k =
      (rows.filter (fun r => decide (r.CONSTRAINT_NAME = k))).map
        (fun r => r.REFERENCED_COLUMN_NAME) :=
  groupFold_projLookup _ mysqlFKEntry mysqlFKPush
    ForeignKeyConstraint.referencedColumns
    (fun r => r.REFERENCED_COLUMN_NAME) (fun _ => rfl) (fun _ _ => rfl) rows k

/-- Produced index names are exactly the grouped keys. -/
theorem introspectIndexesFold_names (rows : List MySQLIndexRow) :
    (introspectIndexesFold rows).map IndexSchema.name =
      keysOf (mysqlIndexGroups rows) := by
  unfold introspectIndexesFold keysOf
  rw [List.map_map]
  refine List.map_congr_left ?_
  intro p hp
  exact groupFold_pair_prop _ mysqlIndexEntry mysqlIndexPush
    (fun q => q.2.name = q.1) (fun _ => rfl) (fun _ _ _ hb => hb) rows p hp

/-- Produced foreign-key names are exactly the grouped keys. -/
theorem mysqlForeignKeysFold_names (rows : List MySQLFKRow) :
    (mysqlForeignKeysFold rows).map ForeignKeyConstraint.name =
      keysOf (mysqlFKGroups rows) := by
  unfold mysqlForeignKeysFold keysOf
  rw [List.map_map]
  refine List.map_congr_left ?_
  intro p hp
  exact groupFold_pair_prop _ mysqlFKEntry mysqlFKPush
    (fun q => q.2.name = q.1) (fun _ => rfl) (fun _ _ _ hb => hb) rows p hp

/-- Claim C4 counterexample: swapping two catalog rows of the same index
changes the produced structure — the column order inside the entry follows
input row order, so the fold is not invariant under arbitrary permutation. -/
theorem C4_counterexample :
    (([ { INDEX_NAME := "i".data, NON_UNIQUE := 1, COLUMN_NAME := "a".data,
          SEQ_IN_INDEX := 1, COLLATION := "A".data, INDEX_TYPE := "BTREE".data,
          is_primary := 0 },
        { INDEX_NAME := "i".data, NON_UNIQUE := 1, COLUMN_NAME := "b".data,
          SEQ_IN_INDEX := 2, COLLATION := "A".data, INDEX_TYPE := "BTREE".data,
          is_primary := 0 } ] : List MySQLIndexRow).Perm
      [ { INDEX_NAME := "i".data, NON_UNIQUE := 1, COLUMN_NAME := "b".data,
          SEQ_IN_INDEX := 2, COLLATION := "A".data, INDEX_TYPE := "BTREE".data,
          is_primary := 0 },
        { INDEX_NAME := "i".data, NON_UNIQUE := 1, COLUMN_NAME := "a".data,
          SEQ_IN_INDEX := 1, COLLATION := "A".data, INDEX_TYPE := "BTREE".data,
          is_primary := 0 } ]) ∧
    introspectIndexesFold
      [ { INDEX_NAME := "i".data, NON_UNIQUE := 1, COLUMN_NAME := "a".data,
          SEQ_IN_INDEX := 1, COLLATION := "A".data, INDEX_TYPE := "BTREE".data,
          is_primary := 0 },
        { INDEX_NAME := "i".data, NON_UNIQUE := 1, COLUMN_NAME := "b".data,
          SEQ_IN_INDEX := 2, COLLATION := "A".data, INDEX_TYPE := "BTREE".data,
          is_primary := 0 } ] ≠
    introspectIndexesFold
      [ { INDEX_NAME := "i".data, NON_UNIQUE := 1, COLUMN_NAME := "b".data,
          SEQ_IN_INDEX := 2, COLLATION := "A".data, INDEX_TYPE := "BTREE".data,
          is_primary := 0 },
        { INDEX_NAME := "i".data, NON_UNIQUE := 1, COLUMN_NAME := "a".data,
          SEQ_IN_INDEX := 1, COLLATION := "A".data, INDEX_TYPE := "BTREE".data,
          is_primary := 0 } ] := by decide

/-- Claim C4 as amended: the grouping folds tolerate arbitrary catalog row
order only up to per-entry column order — under any permutation of the
rows the produced index and foreign-key names are a permutation of the
originals, and each entry's column content (and, for foreign keys, the
referenced-column content) is a permutation of the original content;
equality on the nose additionally requires the catalog order the source
obtains through its ORDER BY. -/
theorem C4_amended :
    (∀ (l1 l2 : List MySQLIndexRow), l1.Perm l2 →
      ((introspectIndexesFold l1).map IndexSchema.name).Perm
        ((introspectIndexesFold l2).map IndexSchema.name) ∧
      (∀ k, (indexColumnsFor l1 k).Perm (indexColumnsFor l2 k))) ∧
    (∀ (m1 m2 : List MySQLFKRow), m1.Perm m2 →
      ((mysqlForeignKeysFold m1).map ForeignKeyConstraint.name).Perm
        ((mysqlForeignKeysFold m2).map ForeignKeyConstraint.name) ∧
      (∀ k, (fkColumnsFor m1 k).Perm (fkColumnsFor m2 k) ∧
        (fkRefColumnsFor m1 k).Perm (fkRefColumnsFor m2 k))) := by
  constructor
  · intro l1 l2 h
    constructor
    · rw [introspectIndexesFold_names, introspectIndexesFold_names]
      exact keysOf_groupFold_perm _ mysqlIndexEntry mysqlIndexPush h
    · intro k
      rw [indexColumnsFor_eq, indexColumnsFor_eq]
      exact (h.filter _).map indexColOf
  · intro m1 m2 h
    constructor
    · rw [mysqlForeignKeysFold_names, mysqlForeignKeysFold_names]
      exact keysOf_groupFold_perm _ mysqlFKEntry mysqlFKPush h
    · intro k
      constructor
      · rw [fkColumnsFor_eq, fkColumnsFor_eq]
        exact (h.filter _).map _
      · rw [fkRefColumnsFor_eq, fkRefColumnsFor_eq]
        exact (h.filter _).map _

/-- Claim C4 witness: the amended theorem applied to the permuted pair of
the counterexample rows. -/
theorem C4_witness :
    ((introspectIndexesFold
      [ { INDEX_NAME := "i".data, NON_UNIQUE := 1, COLUMN_NAME := "a".data,
          SEQ_IN_INDEX := 1, COLLATION := "A".data, INDEX_TYPE := "BTREE".data,
          is_primary := 0 },
        { INDEX_NAME := "i".data, NON_UNIQUE := 1, COLUMN_NAME := "b".data,
          SEQ_IN_INDEX := 2, COLLATION := "A".data, INDEX_TYPE := "BTREE".data,
          is_primary := 0 } ]).map IndexSchema.name).Perm
    ((introspectIndexesFold
      [ { INDEX_NAME := "i".data, NON_UNIQUE := 1, COLUMN_NAME := "b".data,
          SEQ_IN_INDEX := 2, COLLATION := "A".data, INDEX_TYPE := "BTREE".data,
          is_primary := 0 },
        { INDEX_NAME := "i".data, NON_UNIQUE := 1, COLUMN_NAME := "a".data,
          SEQ_IN_INDEX := 1, COLLATION := "A".data, INDEX_TYPE := "BTREE".data,
          is_primary := 0 } ]).map IndexSchema.name) :=
  (C4_amended.1 _ _ (by decide)).1
